import Mathlib

/-
  Verification development for the natural-language-to-filter query engine
  of the astraflow repository (frontend data-exploration feature).

  The definitions below are a shallow embedding of the TypeScript functions
  `aggregateDataForChart`, `applyFilters`, `parseBasicQuery` and
  `analyzeSearchQuery` (src/unnamed/part_004).  Host-language idealizations,
  each noted at its definition:
  * JavaScript numbers are modelled as exact rationals (no IEEE-754 rounding,
    no Infinity/NaN values; NaN outcomes of Number(...) are modelled as
    Option.none, which is how the source consumes them via isNaN checks);
  * Date parsing is modelled for the ISO YYYY-MM-DD subset of the host's
    implementation-defined parser;
  * String.prototype.toLowerCase and localeCompare are modelled as ASCII
    lowercase and code-point order (all strings exercised by the spec are
    ASCII).
-/

set_option maxRecDepth 10000

namespace AstraFlow

/- Rational arithmetic must evaluate inside the kernel for the concrete
test cases below; the library marks these operations irreducible for the
elaborator only, which this file-local attribute undoes. -/
attribute [local semireducible] Rat.add Rat.mul Rat.sub Rat.inv

/-! Character classes of the JavaScript regexes and coercions. -/

/-- JS regex word character class: ASCII letters, digits and underscore. -/
def isWordChar (c : Char) : Bool :=
  c.isAlphanum || c = '_'

/-- JS whitespace (the common ASCII subset; the queries are ASCII). -/
def isSpaceJS (c : Char) : Bool :=
  c = ' ' || c = '\t' || c = '\n' || c = '\r' || c = '\x0b' || c = '\x0c'

/-- ASCII lowercase of a string, modelling String.prototype.toLowerCase. -/
def toLowerStr (s : String) : String :=
  String.mk (s.data.map Char.toLower)

/-- Whitespace trim at both ends, modelling String.prototype.trim. -/
def trimStr (s : String) : String :=
  String.mk (((s.data.dropWhile isSpaceJS).reverse.dropWhile isSpaceJS).reverse)

/-- Does the character list sub occur contiguously inside hay?  Models
String.prototype.includes. -/
def startsWithL : List Char → List Char → Bool
  | _, [] => true
  | [], _ :: _ => false
  | h :: hs, s :: ss => h = s && startsWithL hs ss

def occursIn (sub : List Char) : List Char → Bool
  | [] => sub.isEmpty
  | h :: hs => startsWithL (h :: hs) sub || occursIn sub hs

/-! Model of JavaScript Number(string) coercion.  A some result is the exact
rational value of the literal; none models NaN.  Finite decimal, hex, octal
and binary literals are covered; the IEEE special literal Infinity and
float rounding are idealized away (all values exact). -/

def digitsToNat (ds : List Char) : Nat :=
  ds.foldl (fun n c => 10 * n + (c.toNat - 48)) 0

def hexDigitVal (c : Char) : Option Nat :=
  let n := c.toNat
  if c.isDigit then some (n - 48)
  else if 97 ≤ n && n ≤ 102 then some (n - 87)
  else if 65 ≤ n && n ≤ 70 then some (n - 55)
  else none

/-- Digits of a radix-b literal (all characters must be valid digits). -/
def parseRadix (b : Nat) : List Char → Option Nat
  | [] => none
  | cs => cs.foldl (fun acc c =>
      match acc, hexDigitVal c with
      | some n, some d => if d < b then some (n * b + d) else none
      | _, _ => none) (some 0)

/-- The optional exponent suffix of a decimal literal; returns the scale
factor.  Empty input means no exponent (factor 1); anything else must be a
complete well-formed exponent. -/
def parseExpSuffix : List Char → Option ℚ
  | [] => some 1
  | e :: rest =>
    if e = 'e' || e = 'E' then
      let (neg, rest1) :=
        match rest with
        | '-' :: r => (true, r)
        | '+' :: r => (false, r)
        | r => (false, r)
      let ds := rest1.takeWhile Char.isDigit
      let r2 := rest1.dropWhile Char.isDigit
      if ds.isEmpty || !r2.isEmpty then none
      else
        let p : ℚ := (10 : ℚ) ^ digitsToNat ds
        some (if neg then 1 / p else p)
    else none

/-- A signed decimal literal: digits, optional fraction, optional exponent. -/
def parseDec (cs : List Char) : Option ℚ :=
  let (sign, cs1) : ℚ × List Char :=
    match cs with
    | '-' :: r => (-1, r)
    | '+' :: r => (1, r)
    | r => (1, r)
  let ip := cs1.takeWhile Char.isDigit
  let r2 := cs1.dropWhile Char.isDigit
  match r2 with
  | '.' :: r3 =>
    let fp := r3.takeWhile Char.isDigit
    let r4 := r3.dropWhile Char.isDigit
    if ip.isEmpty && fp.isEmpty then none
    else
      (parseExpSuffix r4).map (fun e =>
        sign * ((digitsToNat ip : ℚ) + (digitsToNat fp : ℚ) / (10 : ℚ) ^ fp.length) * e)
  | r3 =>
    if ip.isEmpty then none
    else (parseExpSuffix r3).map (fun e => sign * (digitsToNat ip : ℚ) * e)

/-- Model of Number(s) on a string: trim whitespace, empty means 0, then a
decimal or prefixed-radix numeric literal; none models NaN. -/
def jsNumber (s : String) : Option ℚ :=
  let cs := ((s.data.dropWhile isSpaceJS).reverse.dropWhile isSpaceJS).reverse
  match cs with
  | [] => some 0
  | '0' :: x :: rest =>
    if x = 'x' || x = 'X' then (parseRadix 16 rest).map (fun n => (n : ℚ))
    else if x = 'o' || x = 'O' then (parseRadix 8 rest).map (fun n => (n : ℚ))
    else if x = 'b' || x = 'B' then (parseRadix 2 rest).map (fun n => (n : ℚ))
    else parseDec cs
  | _ => parseDec cs

/-! Model of new Date(string) for the ISO YYYY-MM-DD subset: a some result
is the epoch timestamp in milliseconds; none models an Invalid Date (whose
getTime() is NaN, which is how the source consumes it). -/

def isLeapYear (y : Int) : Bool :=
  (y % 4 = 0 && y % 100 ≠ 0) || y % 400 = 0

def daysInMonth (y : Int) (m : Nat) : Nat :=
  if m = 1 || m = 3 || m = 5 || m = 7 || m = 8 || m = 10 || m = 12 then 31
  else if m = 4 || m = 6 || m = 9 || m = 11 then 30
  else if isLeapYear y then 29 else 28

/-- Days from the civil epoch 1970-01-01 to year-month-day (proleptic
Gregorian). -/
def daysFromCivil (y : Int) (m d : Nat) : Int :=
  let y1 : Int := if m ≤ 2 then y - 1 else y
  let era : Int := (if 0 ≤ y1 then y1 else y1 - 399) / 400
  let yoe : Int := y1 - era * 400
  let mp : Int := ((m : Int) + 9) % 12
  let doy : Int := (153 * mp + 2) / 5 + (d : Int) - 1
  let doe : Int := yoe * 365 + yoe / 4 - yoe / 100 + doy
  era * 146097 + doe - 719468

/-- ISO YYYY-MM-DD date strings; the timestamp is in milliseconds. -/
def jsDateParse (s : String) : Option ℚ :=
  match s.data with
  | [y1, y2, y3, y4, h1, m1, m2, h2, d1, d2] =>
    if h1 = '-' && h2 = '-' &&
       y1.isDigit && y2.isDigit && y3.isDigit && y4.isDigit &&
       m1.isDigit && m2.isDigit && d1.isDigit && d2.isDigit then
      let y : Int := (digitsToNat [y1, y2, y3, y4] : Int)
      let m := digitsToNat [m1, m2]
      let d := digitsToNat [d1, d2]
      if 1 ≤ m && m ≤ 12 && 1 ≤ d && d ≤ daysInMonth y m then
        some ((daysFromCivil y m d : ℚ) * 86400000)
      else none
    else none
  | _ => none

/-! The data model: a GridRow is a JS object mapping column names to cell
values.  Cells produced by the spreadsheet ingester are strings; rows built
by the aggregator also hold numbers, so a cell is either. -/

inductive CellVal where
  | str (s : String)
  | num (q : ℚ)
deriving DecidableEq, Repr

/-- JS truthiness of a cell value (falsy: empty string and zero). -/
def CellVal.truthy : CellVal → Bool
  | .str s => s ≠ ""
  | .num q => q ≠ 0

/-- Decimal rendering of a rational, modelling JS number-to-string for the
integral values the engine produces (non-integral values, never compared as
strings by the claims, are rendered as num/den). -/
def qToString (q : ℚ) : String :=
  if q.den = 1 then toString q.num
  else toString q.num ++ "/" ++ toString q.den

/-- JS String(v) / v.toString() on a cell value. -/
def cellToString : CellVal → String
  | .str s => s
  | .num q => qToString q

/-- JS Number(v) on a cell value. -/
def cellToNumber : CellVal → Option ℚ
  | .str s => jsNumber s
  | .num q => some q

/-- JS new Date(v).getTime() on a cell value: a number is already an epoch
timestamp; a string is parsed. -/
def cellToDate : CellVal → Option ℚ
  | .str s => jsDateParse s
  | .num q => some q

abbrev GridRow : Type := List (String × CellVal)

/-- JS property read obj[k]: the first binding of the key (a JS object has
at most one); none models undefined. -/
def alistGet {α : Type} (l : List (String × α)) (k : String) : Option α :=
  (l.find? (fun p => p.1 == k)).map (fun p => p.2)

def jsGet (row : GridRow) (k : String) : Option CellVal :=
  alistGet row k

/-- JS property write obj[k] = v: overwrite the existing binding in place,
else append. -/
def jsSet : GridRow → String → CellVal → GridRow
  | [], k, v => [(k, v)]
  | (k1, v1) :: rest, k, v =>
    if k1 == k then (k1, v) :: rest else (k1, v1) :: jsSet rest k v

/-! FilterEngine: the advanced-filter loop of applyFilters.  The operator
is carried as a plain string because the switch has a default branch and
filters can arrive unvalidated from the analysis service. -/

structure FilterCondition where
  id : String
  column : String
  operator : String
  value : String
deriving DecidableEq, Repr

/-- The shared numeric-then-date coercion cascade of the four ordered
operators (the source repeats this block once per case with the same
structure; cmp is the case's comparison, used for numbers and for dates,
which JS compares by their timestamps). -/
def ordCascade (c : CellVal) (v : String) (cmp : ℚ → ℚ → Bool) : Bool :=
  match cellToNumber c, jsNumber v with
  | some a, some b => cmp a b
  | _, _ =>
    match cellToDate c, jsDateParse v with
    | some a, some b => cmp a b
    | _, _ => false

/-- The per-row predicate of one filter: the body of the
result.filter(...) closure inside applyFilters. -/
def rowPasses (f : FilterCondition) (row : GridRow) : Bool :=
  match jsGet row f.column with
  | none => false
  | some c =>
    match f.operator with
    | "equals" => toLowerStr (cellToString c) == toLowerStr f.value
    | "contains" => occursIn (toLowerStr f.value).data (toLowerStr (cellToString c)).data
    | "greater" => ordCascade c f.value (fun a b => decide (b < a))
    | "less" => ordCascade c f.value (fun a b => decide (a < b))
    | "greaterEqual" => ordCascade c f.value (fun a b => decide (b ≤ a))
    | "lessEqual" => ordCascade c f.value (fun a b => decide (a ≤ b))
    | _ => true

/-- applyFilters with the customFilters argument supplied (the path the
query pipeline takes; the free-text quick-search branch is skipped by the
source in that case). -/
def applyFilters (data : List GridRow) (filtersToApply : List FilterCondition) : List GridRow :=
  filtersToApply.foldl (fun result f => result.filter (rowPasses f)) data

/-! PatternMatcher: parseBasicQuery.  Each JS regex template is embedded as
an anchored matcher; on the template shapes used here the backtracking
search is deterministic (each greedy sub-match is forced, because the
character class that follows it is disjoint from the one it repeats), so
the matchers below compute exactly the JS match and captures. -/

/-- Anchored match of (\w+)\s*OP\s*(\d+) at the head of cs, for a literal
operator OP; returns the two captures and the rest of the input after the
match. -/
def matchCmpAt (op : List Char) (cs : List Char) : Option (String × String × List Char) :=
  let w := cs.takeWhile isWordChar
  if w.isEmpty then none
  else
    let r1 := cs.dropWhile isWordChar
    let r2 := r1.dropWhile isSpaceJS
    if startsWithL r2 op then
      let r3 := r2.drop op.length
      let r4 := r3.dropWhile isSpaceJS
      let d := r4.takeWhile Char.isDigit
      if d.isEmpty then none
      else some (String.mk w, String.mk d, r4.dropWhile Char.isDigit)
    else none

/-- Anchored match of (\w+)\s*=\s*([^,\s]+) at the head of cs. -/
def matchEqAt (cs : List Char) : Option (String × String × List Char) :=
  let w := cs.takeWhile isWordChar
  if w.isEmpty then none
  else
    let r1 := cs.dropWhile isWordChar
    let r2 := r1.dropWhile isSpaceJS
    match r2 with
    | '=' :: r3 =>
      let r4 := r3.dropWhile isSpaceJS
      let v := r4.takeWhile (fun c => !(c = ',') && !(isSpaceJS c))
      if v.isEmpty then none
      else some (String.mk w, String.mk v, r4.dropWhile (fun c => !(c = ',') && !(isSpaceJS c)))
    | _ => none

/-- Anchored match of (\w+)\s+contain s? \s+([^,\s]+) at the head of cs
(the optional s is kept exactly when whitespace follows it, which is the
one backtracking choice of the template). -/
def matchContainsAt (cs : List Char) : Option (String × String × List Char) :=
  let w := cs.takeWhile isWordChar
  if w.isEmpty then none
  else
    let r1 := cs.dropWhile isWordChar
    let sp := r1.takeWhile isSpaceJS
    if sp.isEmpty then none
    else
      let r2 := r1.dropWhile isSpaceJS
      if startsWithL r2 ['c', 'o', 'n', 't', 'a', 'i', 'n'] then
        let r3 := r2.drop 7
        let r4 :=
          match r3 with
          | 's' :: r => r
          | r => r
        let sp2 := r4.takeWhile isSpaceJS
        if sp2.isEmpty then none
        else
          let r5 := r4.dropWhile isSpaceJS
          let v := r5.takeWhile (fun c => !(c = ',') && !(isSpaceJS c))
          if v.isEmpty then none
          else some (String.mk w, String.mk v, r5.dropWhile (fun c => !(c = ',') && !(isSpaceJS c)))
      else none

/-- The regex.exec loop with the g flag: repeatedly take the leftmost match
at or after the previous match end.  Every matcher above consumes at least
one character on success, so fuel equal to the input length is exact. -/
def scanAllAux (matchAt : List Char → Option (String × String × List Char)) :
    Nat → List Char → List (String × String)
  | 0, _ => []
  | _ + 1, [] => []
  | fuel + 1, c :: cs =>
    match matchAt (c :: cs) with
    | some (a, b, rest) => (a, b) :: scanAllAux matchAt fuel rest
    | none => scanAllAux matchAt fuel cs

def scanAll (matchAt : List Char → Option (String × String × List Char))
    (cs : List Char) : List (String × String) :=
  scanAllAux matchAt cs.length cs

/-- Column resolution: the first header related to the token by
case-insensitive substring containment in either direction. -/
def findMatchingColumn (headers : List String) (columnName : String) : Option String :=
  headers.find? (fun header =>
    occursIn columnName.data (toLowerStr header).data ||
    occursIn (toLowerStr header).data columnName.data)

/-- The fixed template list of parseBasicQuery, in source order. -/
def basicPatterns : List ((List Char → Option (String × String × List Char)) × String) :=
  [(matchCmpAt ['>'], "greater"),
   (matchCmpAt ['<'], "less"),
   (matchCmpAt ['>', '='], "greaterEqual"),
   (matchCmpAt ['<', '='], "lessEqual"),
   (matchEqAt, "equals"),
   (matchContainsAt, "contains")]

/-- parseBasicQuery.  now stands for Date.now(), which the source embeds in
the generated filter ids; headers is excelData.headers (the caller
guarantees data is loaded). -/
def parseBasicQuery (now : Nat) (headers : List String) (query : String) :
    List FilterCondition :=
  let lowerQuery := toLowerStr query
  basicPatterns.foldl (fun filters pat =>
    (scanAll pat.1 lowerQuery.data).foldl (fun filters m =>
      match findMatchingColumn headers m.1 with
      | some col =>
        filters ++ [{ id := "basic_filter_" ++ toString now ++ "_" ++ toString filters.length,
                      column := col, operator := pat.2, value := trimStr m.2 }]
      | none => filters) filters) []

/-! QueryInterpreter: analyzeSearchQuery.  The external analysis service
call is the one effect; its outcome is a parameter of the embedding, with
one constructor per observable shape the source distinguishes.  A thrown
JS exception is an Except.error carrying the message. -/

structure ExcelData where
  headers : List String
  rows : List (List String)
deriving Repr

/-- One element of the filters array of a service payload.  JS falsiness of
a missing or empty string field is modelled by the empty string; hasValue
models the value field being defined at all. -/
structure RawFilter where
  column : String
  operator : String
  hasValue : Bool
  value : String
deriving Repr

/-- The filters field of the payload: absent, present but not an array, or
an array. -/
inductive FiltersField where
  | missing
  | nonArray
  | arr (fs : List RawFilter)
deriving Repr

/-- The data payload of a success response.  isObject models the typeof
check; an absent or empty interpretation (both falsy) is the empty
string. -/
structure RawData where
  isObject : Bool
  interpretation : String
  filters : FiltersField
deriving Repr

/-- The parsed JSON body of a 2xx response. -/
structure ServiceBody where
  success : Bool
  data : Option RawData
  error : Option String
deriving Repr

/-- What the fetch round-trip produced, as the source observes it. -/
inductive ServiceOutcome where
  | networkError (msg : String)
  | httpFail (status : Nat) (text : Option String)
  | badJson (msg : String)
  | ok (body : ServiceBody)
deriving Repr

structure AIAnalysisResult where
  query : String
  interpretation : String
  filters : List FilterCondition
  success : Bool
  error : Option String
deriving Repr

/-- The filters.map validation loop: throws (Except.error) on the first
element missing column, operator or a defined value; otherwise replaces
ids. -/
def validateFilters (now : Nat) : Nat → List RawFilter → Except String (List FilterCondition)
  | _, [] => .ok []
  | i, f :: rest =>
    if f.column == "" || f.operator == "" || !f.hasValue then
      .error ("Invalid filter structure at index " ++ toString i)
    else
      match validateFilters now (i + 1) rest with
      | .ok fs =>
        .ok ({ id := "ai_filter_" ++ toString now ++ "_" ++ toString i,
               column := f.column, operator := f.operator, value := f.value } :: fs)
      | .error e => .error e

/-- The try block of analyzeSearchQuery after the service call: every
throw is an error, which the catch below turns into the fallback. -/
def tryAnalyze (now : Nat) (resp : ServiceOutcome) :
    Except String (String × List FilterCondition) :=
  match resp with
  | .networkError msg => .error ("Network error: " ++ msg)
  | .httpFail status text =>
    let errorText :=
      match text with
      | some t => t
      | none => "Unable to read error response"
    .error ("API Error: " ++ toString status ++ " - " ++
            (if errorText == "" then "Server error" else errorText))
  | .badJson msg => .error msg
  | .ok body =>
    match body.success, body.data with
    | true, some d =>
      if !d.isObject then .error "Analysis response is not a valid object"
      else
        let interp := if d.interpretation == "" then "AI analysis completed" else d.interpretation
        let rawFilters :=
          match d.filters with
          | .missing => []
          | .nonArray => []
          | .arr fs => fs
        match validateFilters now 0 rawFilters with
        | .ok fs => .ok (interp, fs)
        | .error e => .error e
    | _, _ =>
      .error (match body.error with
              | some e => if e == "" then "Analysis failed" else e
              | none => "Analysis failed")

/-- analyzeSearchQuery.  The only statement outside the try/catch is the
no-data guard, which throws; with data loaded every path returns (.ok). -/
def analyzeSearchQuery (now : Nat) (query : String) (excelData : Option ExcelData)
    (resp : ServiceOutcome) : Except String AIAnalysisResult :=
  match excelData with
  | none => .error "No data available for analysis"
  | some data =>
    match tryAnalyze now resp with
    | .ok (interp, fs) =>
      .ok { query := query, interpretation := interp, filters := fs,
            success := true, error := none }
    | .error e =>
      let basicFilters := parseBasicQuery now data.headers query
      if basicFilters.length > 0 then
        .ok { query := query,
              interpretation := "Using basic pattern matching: Found " ++
                toString basicFilters.length ++ " filter(s). AI service unavailable.",
              filters := basicFilters, success := true, error := none }
      else
        .ok { query := query,
              interpretation := "AI service unavailable. Try basic patterns like column > value, column contains text, or column = value.",
              filters := [], success := false, error := some e }

/-! Aggregator: aggregateDataForChart. -/

/-- The per-group accumulator of the aggregation Map. -/
structure AggEntry where
  sum : ℚ
  count : Nat
  values : List (Option CellVal)
deriving DecidableEq, Repr

def emptyEntry : AggEntry := { sum := 0, count := 0, values := [] }

/-- Number(yValue) where yValue may be undefined (Number(undefined) is
NaN). -/
def numOfOptCell : Option CellVal → Option ℚ
  | none => none
  | some v => cellToNumber v

/-- One loop iteration over a row of the group: add to sum and count when
the y cell coerces, and always push the raw value. -/
def bumpEntry (e : AggEntry) (yValue : Option CellVal) : AggEntry :=
  match numOfOptCell yValue with
  | some q => { sum := e.sum + q, count := e.count + 1, values := e.values ++ [yValue] }
  | none => { e with values := e.values ++ [yValue] }

/-- Map.get/Map.set of the grouping map: update the existing entry in
place, else append (JS Map preserves insertion order). -/
def upsert : List (String × AggEntry) → String → Option CellVal → List (String × AggEntry)
  | [], k, y => [(k, bumpEntry emptyEntry y)]
  | (k1, e) :: rest, k, y =>
    if k1 == k then (k1, bumpEntry e y) :: rest
    else (k1, e) :: upsert rest k y

/-- String(row[xAxis] || ""): the group key of a row. -/
def groupKeyOf (row : GridRow) (xAxis : String) : String :=
  cellToString (match jsGet row xAxis with
                | some v => if v.truthy then v else .str ""
                | none => .str "")

def buildGroups (data : List GridRow) (xAxis yAxis : String) : List (String × AggEntry) :=
  data.foldl (fun acc row => upsert acc (groupKeyOf row xAxis) (jsGet row yAxis)) []

/-- The .map step: one output GridRow per group. -/
def mkAggRow (xAxis yAxis : String) (p : String × AggEntry) : GridRow :=
  let r0 := jsSet [] xAxis (.str p.1)
  if 0 < p.2.count then
    let r1 := jsSet r0 yAxis (.num p.2.sum)
    let r2 := jsSet r1 (yAxis ++ "_count") (.num (p.2.count : ℚ))
    jsSet r2 (yAxis ++ "_avg") (.num (p.2.sum / (p.2.count : ℚ)))
  else
    jsSet r0 yAxis (.num ((p.2.values.length : ℚ)))

/-- String(v) where v may be undefined. -/
def strOfOptCell : Option CellVal → String
  | none => "undefined"
  | some v => cellToString v

/-- localeCompare modelled as code-point order. -/
def localeCmp (a b : String) : ℚ :=
  if a.data < b.data then -1 else if b.data < a.data then 1 else 0

/-- The sort comparator: numeric difference when both x cells coerce to
numbers, else string comparison. -/
def aggCompare (xAxis : String) (a b : GridRow) : ℚ :=
  match numOfOptCell (jsGet a xAxis), numOfOptCell (jsGet b xAxis) with
  | some qa, some qb => qa - qb
  | _, _ => localeCmp (strOfOptCell (jsGet a xAxis)) (strOfOptCell (jsGet b xAxis))

/-- Stable comparator sort (JS Array.prototype.sort is stable): insert each
element after the existing elements it does not strictly precede. -/
def insertCmp {α : Type} (cmp : α → α → ℚ) (a : α) : List α → List α
  | [] => [a]
  | b :: bs => if cmp a b < 0 then a :: b :: bs else b :: insertCmp cmp a bs

def sortByCmp {α : Type} (cmp : α → α → ℚ) (l : List α) : List α :=
  l.foldl (fun sorted a => insertCmp cmp a sorted) []

/-- aggregateDataForChart.  The guard returns the data argument itself (the
source also returns a null data argument unchanged; the embedding's rows
are always a list). -/
def aggregateDataForChart (data : List GridRow) (xAxis yAxis : String) : List GridRow :=
  if data.isEmpty || xAxis == "" || yAxis == "" then data
  else
    sortByCmp (aggCompare xAxis)
      ((buildGroups data xAxis yAxis).map (mkAggRow xAxis yAxis))

/-! Spec-side definitions used to state the claims. -/

/-- The comparison the spec assigns to each ordered operator. -/
def ordCmpB (op : String) (a b : ℚ) : Bool :=
  if op == "greater" then decide (b < a)
  else if op == "less" then decide (a < b)
  else if op == "greaterEqual" then decide (b ≤ a)
  else decide (a ≤ b)

/-- The order the sort claim requires of a key pair (a before b): numeric
ascending when both parse as numbers, else lexicographic ascending. -/
def claimPairOrdered (a b : String) : Bool :=
  match jsNumber a, jsNumber b with
  | some qa, some qb => decide (qa ≤ qb)
  | _, _ => !(decide (b.data < a.data))

/-- Every ordered pair of the list satisfies the claimed order. -/
def claimSorted : List String → Bool
  | [] => true
  | a :: rest => rest.all (claimPairOrdered a) && claimSorted rest

/-- The group keys of the aggregated rows (the string cell the aggregator
writes under the x-axis column). -/
def groupKeyStrings (rows : List GridRow) (xAxis : String) : List String :=
  rows.filterMap (fun row =>
    match jsGet row xAxis with
    | some (.str k) => some k
    | _ => none)

/-- The rows of data falling into the group keyed k. -/
def groupRows (data : List GridRow) (x k : String) : List GridRow :=
  data.filter (fun row => groupKeyOf row x == k)

/-- How many rows of the group have a y cell that coerces to a number. -/
def numericCount (rows : List GridRow) (y : String) : Nat :=
  rows.countP (fun row => (numOfOptCell (jsGet row y)).isSome)

/-- The sum of the numerically coercible y cells of the group. -/
def numericSum (rows : List GridRow) (y : String) : ℚ :=
  (rows.filterMap (fun row => numOfOptCell (jsGet row y))).sum

/-- The y cells of the group, in row order. -/
def ysOf (data : List GridRow) (x y k : String) : List (Option CellVal) :=
  (groupRows data x k).map (fun row => jsGet row y)

/-- Folding a run of y cells into an accumulator entry. -/
def absorb (e : AggEntry) (ys : List (Option CellVal)) : AggEntry :=
  ys.foldl bumpEntry e

/-- The keys of an association list. -/
def keysOfA {α : Type} (l : List (String × α)) : List String :=
  l.map Prod.fst

/-- Concrete input and output row for the aggregation witness below. -/
def cDataC4 : List GridRow :=
  [[("g", CellVal.str "a"), ("v", CellVal.str "5")],
   [("g", CellVal.str "a"), ("v", CellVal.str "7")]]

def cRowC4 : GridRow :=
  [("g", CellVal.str "a"), ("v", CellVal.num 12),
   ("v_count", CellVal.num 2), ("v_avg", CellVal.num 6)]

/-! General lemmas. -/

theorem filter_swap {α : Type} (p q : α → Bool) (l : List α) :
    (l.filter p).filter q = (l.filter q).filter p := by
  induction l with
  | nil => rfl
  | cons a t ih =>
    by_cases h1 : p a <;> by_cases h2 : q a <;>
      simp [List.filter_cons, h1, h2, ih]

theorem absorb_nil (e : AggEntry) : absorb e [] = e := rfl

theorem absorb_cons (e : AggEntry) (a : Option CellVal) (t : List (Option CellVal)) :
    absorb e (a :: t) = absorb (bumpEntry e a) t := rfl

theorem absorb_count (ys : List (Option CellVal)) :
    ∀ e : AggEntry,
      (absorb e ys).count = e.count + ys.countP (fun o => (numOfOptCell o).isSome) := by
  induction ys with
  | nil => intro e; simp [absorb]
  | cons a t ih =>
    intro e
    rw [absorb_cons, ih, List.countP_cons]
    cases h : numOfOptCell a <;> (simp [bumpEntry, h]; all_goals omega)

theorem absorb_sum (ys : List (Option CellVal)) :
    ∀ e : AggEntry,
      (absorb e ys).sum = e.sum + (ys.filterMap numOfOptCell).sum := by
  induction ys with
  | nil => intro e; simp [absorb]
  | cons a t ih =>
    intro e
    rw [absorb_cons, ih, List.filterMap_cons]
    cases h : numOfOptCell a <;> (simp [bumpEntry, h]; all_goals ring)

theorem absorb_values_len (ys : List (Option CellVal)) :
    ∀ e : AggEntry,
      (absorb e ys).values.length = e.values.length + ys.length := by
  induction ys with
  | nil => intro e; simp [absorb]
  | cons a t ih =>
    intro e
    rw [absorb_cons, ih]
    cases h : numOfOptCell a <;> simp [bumpEntry, h] <;> omega

theorem alistGet_nil {α : Type} (k : String) : alistGet ([] : List (String × α)) k = none := rfl

theorem alistGet_cons {α : Type} (p : String × α) (rest : List (String × α)) (k : String) :
    alistGet (p :: rest) k = if p.1 = k then some p.2 else alistGet rest k := by
  by_cases h : p.1 = k <;> simp [alistGet, List.find?_cons, h]

theorem alistGet_upsert (l : List (String × AggEntry)) (k k2 : String) (y : Option CellVal) :
    alistGet (upsert l k y) k2 =
      if k2 = k then some (bumpEntry ((alistGet l k).getD emptyEntry) y)
      else alistGet l k2 := by
  induction l with
  | nil =>
    by_cases h : k2 = k
    · subst h; simp [upsert, alistGet_cons, alistGet_nil]
    · simp [upsert, alistGet_cons, alistGet_nil, h, Ne.symm h]
  | cons p rest ih =>
    obtain ⟨k1, e⟩ := p
    by_cases h1 : k1 = k
    · subst h1
      simp only [upsert, beq_self_eq_true, if_true]
      by_cases h2 : k2 = k1
      · subst h2; simp [alistGet_cons]
      · simp [alistGet_cons, h2, Ne.symm h2]
    · have hb : (k1 == k) = false := by simp [h1]
      simp only [upsert, hb, Bool.false_eq_true, if_false]
      by_cases h2 : k2 = k
      · subst h2
        have h3 : k1 ≠ k2 := h1
        simp [alistGet_cons, ih, h3, Ne.symm h1]
      · by_cases h3 : k1 = k2
        · subst h3; simp [alistGet_cons, ih, h2]
        · simp [alistGet_cons, ih, h2, h3]

theorem alistGet_jsSet (r : GridRow) (k k2 : String) (v : CellVal) :
    alistGet (jsSet r k v) k2 = if k2 = k then some v else alistGet r k2 := by
  induction r with
  | nil =>
    by_cases h : k2 = k
    · subst h; simp [jsSet, alistGet_cons, alistGet_nil]
    · simp [jsSet, alistGet_cons, alistGet_nil, h, Ne.symm h]
  | cons p rest ih =>
    obtain ⟨k1, v1⟩ := p
    by_cases h1 : k1 = k
    · subst h1
      simp only [jsSet, beq_self_eq_true, if_true]
      by_cases h2 : k2 = k1
      · subst h2; simp [alistGet_cons]
      · simp [alistGet_cons, h2, Ne.symm h2]
    · have hb : (k1 == k) = false := by simp [h1]
      simp only [jsSet, hb, Bool.false_eq_true, if_false]
      by_cases h2 : k2 = k
      · subst h2
        simp [alistGet_cons, ih, h1, Ne.symm h1]
      · by_cases h3 : k1 = k2
        · subst h3; simp [alistGet_cons, ih, h2]
        · simp [alistGet_cons, ih, h2, h3]

theorem jsGet_jsSet (r : GridRow) (k k2 : String) (v : CellVal) :
    jsGet (jsSet r k v) k2 = if k2 = k then some v else jsGet r k2 :=
  alistGet_jsSet r k k2 v

theorem str_data_append (a b : String) : (a ++ b).data = a.data ++ b.data := rfl

theorem str_ne_append (a b : String) (hb : b ≠ "") : a ≠ a ++ b := by
  intro h
  apply hb
  have h1 : (a ++ b).data.length = a.data.length + b.data.length := by
    rw [str_data_append]
    exact List.length_append _ _
  have h2 : a.data.length = (a ++ b).data.length :=
    congrArg (fun s => s.data.length) h
  have h3 : b.data.length = 0 := by omega
  have h4 : b.data = [] := List.length_eq_zero.mp h3
  obtain ⟨bd⟩ := b
  simp only at h4
  subst h4
  rfl

theorem str_append_right_inj (a b c : String) (h : a ++ b = a ++ c) : b = c := by
  have hdata : a.data ++ b.data = a.data ++ c.data := congrArg String.data h
  have hbc : b.data = c.data := List.append_cancel_left hdata
  obtain ⟨bd⟩ := b
  obtain ⟨cd⟩ := c
  exact congrArg String.mk hbc

theorem ysOf_nil (x y k : String) : ysOf [] x y k = [] := rfl

theorem ysOf_cons (row : GridRow) (rest : List GridRow) (x y k : String) :
    ysOf (row :: rest) x y k =
      if groupKeyOf row x = k then jsGet row y :: ysOf rest x y k
      else ysOf rest x y k := by
  by_cases h : groupKeyOf row x = k <;>
    simp [ysOf, groupRows, List.filter_cons, h]

/-- The grouping fold, looked up at one key: it extends whatever the
accumulator already holds at that key by the y cells of the key's rows. -/
theorem foldGroups_lookup (x y k : String) (data : List GridRow) :
    ∀ acc : List (String × AggEntry),
      alistGet (data.foldl (fun a row => upsert a (groupKeyOf row x) (jsGet row y)) acc) k =
        match alistGet acc k with
        | some e => some (absorb e (ysOf data x y k))
        | none =>
          if (ysOf data x y k).isEmpty then none
          else some (absorb emptyEntry (ysOf data x y k)) := by
  induction data with
  | nil =>
    intro acc
    cases h : alistGet acc k <;> simp [ysOf_nil, absorb_nil, h]
  | cons row rest ih =>
    intro acc
    rw [List.foldl_cons, ih, alistGet_upsert]
    by_cases hk : k = groupKeyOf row x
    · rw [if_pos hk, ysOf_cons, if_pos hk.symm]
      cases h : alistGet acc k
      · subst hk; simp [h, absorb_cons]
      · subst hk; simp [h, absorb_cons]
    · have hys : ysOf (row :: rest) x y k = ysOf rest x y k := by
        rw [ysOf_cons, if_neg (fun h => hk h.symm)]
      rw [if_neg hk, hys]

theorem mem_keysOfA_upsert (k a : String) (y : Option CellVal)
    (l : List (String × AggEntry)) :
    a ∈ keysOfA (upsert l k y) ↔ a ∈ keysOfA l ∨ a = k := by
  induction l with
  | nil => simp [upsert, keysOfA]
  | cons p rest ih =>
    obtain ⟨k1, e⟩ := p
    by_cases h1 : k1 = k
    · subst h1
      simp only [upsert, beq_self_eq_true, if_true]
      simp [keysOfA]
      tauto
    · have hb : (k1 == k) = false := by simp [h1]
      simp only [upsert, hb, Bool.false_eq_true, if_false]
      simp [keysOfA] at ih ⊢
      rw [ih]
      tauto

theorem nodup_keysOfA_upsert (k : String) (y : Option CellVal)
    (l : List (String × AggEntry)) (h : (keysOfA l).Nodup) :
    (keysOfA (upsert l k y)).Nodup := by
  induction l with
  | nil => simp [upsert, keysOfA]
  | cons p rest ih =>
    obtain ⟨k1, e⟩ := p
    simp only [keysOfA, List.map_cons, List.nodup_cons] at h
    by_cases h1 : k1 = k
    · subst h1
      simp only [upsert, beq_self_eq_true, if_true]
      simp only [keysOfA, List.map_cons, List.nodup_cons]
      exact h
    · have hb : (k1 == k) = false := by simp [h1]
      simp only [upsert, hb, Bool.false_eq_true, if_false]
      simp only [keysOfA, List.map_cons, List.nodup_cons]
      refine ⟨?_, ih h.2⟩
      intro hmem
      rcases (mem_keysOfA_upsert k k1 y rest).1 hmem with hm | hm
      · exact h.1 hm
      · exact h1 hm

theorem nodup_keysOfA_foldGroups (x y : String) (data : List GridRow) :
    ∀ acc : List (String × AggEntry), (keysOfA acc).Nodup →
      (keysOfA (data.foldl (fun a row => upsert a (groupKeyOf row x) (jsGet row y)) acc)).Nodup := by
  induction data with
  | nil => intro acc h; simpa using h
  | cons row rest ih =>
    intro acc h
    rw [List.foldl_cons]
    exact ih _ (nodup_keysOfA_upsert _ _ _ h)

theorem alistGet_of_mem {α : Type} (l : List (String × α)) (k : String) (e : α)
    (hnd : (keysOfA l).Nodup) (hm : (k, e) ∈ l) : alistGet l k = some e := by
  induction l with
  | nil => cases hm
  | cons p rest ih =>
    obtain ⟨k1, e1⟩ := p
    simp only [keysOfA, List.map_cons, List.nodup_cons] at hnd
    rcases List.mem_cons.1 hm with h | h
    · injection h with h1 h2
      subst h1
      subst h2
      simp [alistGet_cons]
    · have hne : k1 ≠ k := by
        intro hkk
        subst hkk
        exact hnd.1 (List.mem_map.2 ⟨(k1, e), h, rfl⟩)
      rw [alistGet_cons, if_neg hne]
      exact ih hnd.2 h

theorem mem_insertCmp {α : Type} (cmp : α → α → ℚ) (a b : α) (l : List α) :
    b ∈ insertCmp cmp a l ↔ b = a ∨ b ∈ l := by
  induction l with
  | nil => simp [insertCmp]
  | cons c t ih =>
    simp only [insertCmp]
    split
    · simp
    · simp [ih]
      tauto

theorem mem_sortByCmp_fold {α : Type} (cmp : α → α → ℚ) (l : List α) :
    ∀ (acc : List α) (b : α),
      (b ∈ l.foldl (fun sorted a => insertCmp cmp a sorted) acc ↔ b ∈ acc ∨ b ∈ l) := by
  induction l with
  | nil => intro acc b; simp
  | cons c t ih =>
    intro acc b
    rw [List.foldl_cons, ih]
    simp [mem_insertCmp]
    tauto

theorem mem_sortByCmp {α : Type} (cmp : α → α → ℚ) (l : List α) (b : α) :
    b ∈ sortByCmp cmp l ↔ b ∈ l := by
  rw [sortByCmp, mem_sortByCmp_fold]
  simp

/-! Claim C1.  The query interpretation operation never throws once data is
loaded (the column list and sample exist) and always lands in a well-formed
result. -/

/-- C1: for every query, table data (column list and sample rows), service
outcome (including network failures, HTTP errors, malformed JSON and
malformed payloads) and timestamp, analyzeSearchQuery returns (never
throws) a well-formed result carrying the query back, with empty filters
and a recorded error exactly on the unsuccessful path. -/
theorem analyzeSearchQuery_never_throws (now : Nat) (q : String) (data : ExcelData)
    (resp : ServiceOutcome) :
    ∃ r : AIAnalysisResult,
      analyzeSearchQuery now q (some data) resp = .ok r ∧
      r.query = q ∧
      (r.success = false → r.filters = [] ∧ r.error.isSome = true) ∧
      (r.success = true → r.error = none) := by
  unfold analyzeSearchQuery
  cases htry : tryAnalyze now resp with
  | ok v =>
    obtain ⟨interp, fs⟩ := v
    exact ⟨_, rfl, rfl, by simp, fun _ => rfl⟩
  | error e =>
    dsimp only
    split
    · exact ⟨_, rfl, rfl, by simp, fun _ => rfl⟩
    · exact ⟨_, rfl, rfl, fun _ => ⟨rfl, rfl⟩, by simp⟩

/-! Claim C2 (corrected).  An undefined (or null) cell never matches, but an
empty-string cell is not excluded: it is evaluated by the operator and can
match. -/

/-- C2 counterexample: a row whose cell for the filter column is the empty
string is kept by a contains filter with empty value (and by an equals
filter with empty value), contradicting the claim that an empty cell never
matches. -/
theorem empty_cell_filter_matches_cex :
    applyFilters [[("a", CellVal.str "")]]
        [{ id := "f1", column := "a", operator := "contains", value := "" }] =
      [[("a", CellVal.str "")]] ∧
    applyFilters [[("a", CellVal.str "")]]
        [{ id := "f2", column := "a", operator := "equals", value := "" }] =
      [[("a", CellVal.str "")]] := by
  decide

/-- C2 amended: if the row's cell for the filter column is undefined/null
(for example the column does not exist in the table), the filter does not
match and the row is excluded from apply, regardless of operator; an
empty-string cell is not excluded but evaluated by the operator normally. -/
theorem undefined_cell_never_matches (f : FilterCondition) (data : List GridRow)
    (row : GridRow) (h1 : jsGet row f.column = none) (_h2 : row ∈ data) :
    row ∉ applyFilters data [f] := by
  show row ∉ data.filter (rowPasses f)
  simp [List.mem_filter, rowPasses, h1]

/-- C2 witness: the hypotheses of undefined_cell_never_matches are
satisfiable and the exclusion holds at a concrete row whose table lacks
the filter column. -/
theorem undefined_cell_never_matches_witness :
    jsGet [("a", CellVal.str "1")] "zzz" = none ∧
    [("a", CellVal.str "1")] ∈ ([[("a", CellVal.str "1")]] : List GridRow) ∧
    [("a", CellVal.str "1")] ∉ applyFilters [[("a", CellVal.str "1")]]
      [{ id := "f", column := "zzz", operator := "equals", value := "1" }] :=
  ⟨by decide, by decide,
   undefined_cell_never_matches _ _ _ (by decide) (by decide)⟩

/-! Claim C3 (corrected).  The guard returns the input row list itself, not
always an empty list: empty rows give an empty result, but a missing axis
with non-empty rows gives the rows back unchanged. -/

/-- C3 counterexample: with a non-empty row list and an empty xColumn the
aggregator returns the input rows, which are not an empty list. -/
theorem aggregate_missing_axis_cex :
    aggregateDataForChart [[("a", CellVal.str "1")]] "" "y" = [[("a", CellVal.str "1")]] ∧
    aggregateDataForChart [[("a", CellVal.str "1")]] "" "y" ≠ [] := by
  decide

/-- C3 amended: if the row list is empty, or xColumn or yColumn is
missing/empty, aggregate returns the input row list unchanged without
raising an error (empty exactly when the input rows are empty). -/
theorem aggregate_guard_returns_input (data : List GridRow) (x y : String)
    (h : data = [] ∨ x = "" ∨ y = "") :
    aggregateDataForChart data x y = data := by
  rcases h with h | h | h <;> subst h <;> simp [aggregateDataForChart]

/-- C3 witness: the guard hypothesis is satisfiable and the amended
conclusion holds at a concrete non-empty input with a missing axis. -/
theorem aggregate_guard_returns_input_witness :
    (([[("a", CellVal.str "1")]] : List GridRow) = [] ∨ "" = "" ∨ "y" = "") ∧
    aggregateDataForChart [[("a", CellVal.str "1")]] "" "y" = [[("a", CellVal.str "1")]] :=
  ⟨Or.inr (Or.inl rfl),
   aggregate_guard_returns_input [[("a", CellVal.str "1")]] "" "y" (Or.inr (Or.inl rfl))⟩

/-! Claim C4 (corrected).  The count that the aggregator reports is the
number of numerically coercible y cells of the group (not the group size),
and when the group has no coercible cell the reported value is the group
size (not 0), with no count/average fields at all. -/

/-- C4 counterexample: a group of two rows with one coercible y cell
reports count 1 (the claim demands 2, the group size), and a group with no
coercible cell reports value 1, the group size, instead of the claimed
0. -/
theorem aggregate_count_value_cex :
    aggregateDataForChart
        [[("cat", CellVal.str "a"), ("y", CellVal.str "5")],
         [("cat", CellVal.str "a"), ("y", CellVal.str "abc")]] "cat" "y" =
      [[("cat", CellVal.str "a"), ("y", CellVal.num 5),
        ("y_count", CellVal.num 1), ("y_avg", CellVal.num 5)]] ∧
    (groupRows
        [[("cat", CellVal.str "a"), ("y", CellVal.str "5")],
         [("cat", CellVal.str "a"), ("y", CellVal.str "abc")]] "cat" "a").length = 2 ∧
    aggregateDataForChart [[("cat", CellVal.str "b"), ("y", CellVal.str "abc")]] "cat" "y" =
      [[("cat", CellVal.str "b"), ("y", CellVal.num 1)]] := by
  decide

/-- C4 amended: for non-empty rows and non-empty axes (and axis names that
do not collide with the derived output column names), every output row
describes a non-empty group, its count field equals the number of rows of
the group whose y cell coerces to a number, its value equals the sum of
those coerced values, and its average equals that sum divided by the
coercible-cell count - the three fields being present exactly when at
least one cell coerces; when none coerces the value field holds the group
size instead and the count/average fields are absent. -/
theorem aggregate_group_accumulators (data : List GridRow) (x y : String) (row : GridRow)
    (hd : data ≠ []) (hx : x ≠ "") (hy : y ≠ "")
    (hxy : x ≠ y) (hxc : x ≠ y ++ "_count") (hxa : x ≠ y ++ "_avg")
    (hrow : row ∈ aggregateDataForChart data x y) :
    ∃ k : String,
      jsGet row x = some (.str k) ∧
      groupRows data x k ≠ [] ∧
      (0 < numericCount (groupRows data x k) y →
        jsGet row y = some (.num (numericSum (groupRows data x k) y)) ∧
        jsGet row (y ++ "_count") =
          some (.num ((numericCount (groupRows data x k) y : ℚ))) ∧
        jsGet row (y ++ "_avg") =
          some (.num (numericSum (groupRows data x k) y /
                      (numericCount (groupRows data x k) y : ℚ)))) ∧
      (numericCount (groupRows data x k) y = 0 →
        jsGet row y = some (.num ((groupRows data x k).length : ℚ))) := by
  unfold aggregateDataForChart at hrow
  rw [if_neg (by simp [hd, hx, hy])] at hrow
  rw [mem_sortByCmp] at hrow
  obtain ⟨⟨k, e⟩, hmem, hrow_eq⟩ := List.mem_map.1 hrow
  have hnd := nodup_keysOfA_foldGroups x y data [] (by simp [keysOfA])
  have hget := alistGet_of_mem _ _ _ hnd hmem
  unfold buildGroups at hget
  rw [foldGroups_lookup x y k data [], alistGet_nil] at hget
  by_cases hys : (ysOf data x y k).isEmpty
  · rw [if_pos hys] at hget; cases hget
  · rw [if_neg hys] at hget
    have he : e = absorb emptyEntry (ysOf data x y k) := (Option.some.inj hget).symm
    have hcount : e.count = numericCount (groupRows data x k) y := by
      rw [he, absorb_count]
      simp [emptyEntry, ysOf, numericCount, List.countP_map]
      rfl
    have hsum : e.sum = numericSum (groupRows data x k) y := by
      rw [he, absorb_sum]
      simp [emptyEntry, ysOf, numericSum, List.filterMap_map]
      rfl
    have hlen : e.values.length = (groupRows data x k).length := by
      rw [he, absorb_values_len]
      simp [emptyEntry, ysOf]
    have hgrp : groupRows data x k ≠ [] := by
      intro h0
      apply hys
      simp [ysOf, h0]
    have hyc : y ≠ y ++ "_count" := str_ne_append y "_count" (by decide)
    have hya : y ≠ y ++ "_avg" := str_ne_append y "_avg" (by decide)
    have hcne : y ++ "_count" ≠ y ++ "_avg" := fun h =>
      absurd (str_append_right_inj y _ _ h) (by decide)
    subst hrow_eq
    refine ⟨k, ?_, hgrp, ?_, ?_⟩
    · by_cases hpos : 0 < e.count
      · simp [mkAggRow, hpos, jsGet_jsSet, alistGet_jsSet, hxa, hxc, hxy]
      · simp [mkAggRow, hpos, jsGet_jsSet, alistGet_jsSet, hxy]
    · intro hn
      have hpos : 0 < e.count := hcount ▸ hn
      refine ⟨?_, ?_, ?_⟩
      · simp [mkAggRow, hpos, hn, jsGet_jsSet, hya, hyc, hsum]
      · simp [mkAggRow, hpos, hn, jsGet_jsSet, hcne, hcount]
      · simp [mkAggRow, hpos, hn, jsGet_jsSet, hsum, hcount]
    · intro hn
      have hpos : ¬ 0 < e.count := by
        rw [hcount, hn]; exact Nat.lt_irrefl 0
      simp [mkAggRow, hpos, jsGet_jsSet, hlen]

/-- C4 witness: the hypotheses hold at a concrete two-row table whose group
has two coercible cells summing to 12, and the theorem instantiates on the
aggregated output row. -/
theorem aggregate_group_accumulators_witness :
    cRowC4 ∈ aggregateDataForChart cDataC4 "g" "v" ∧
    (∃ k : String,
      jsGet cRowC4 "g" = some (.str k) ∧
      groupRows cDataC4 "g" k ≠ [] ∧
      (0 < numericCount (groupRows cDataC4 "g" k) "v" →
        jsGet cRowC4 "v" = some (.num (numericSum (groupRows cDataC4 "g" k) "v")) ∧
        jsGet cRowC4 ("v" ++ "_count") =
          some (.num ((numericCount (groupRows cDataC4 "g" k) "v" : ℚ))) ∧
        jsGet cRowC4 ("v" ++ "_avg") =
          some (.num (numericSum (groupRows cDataC4 "g" k) "v" /
                      (numericCount (groupRows cDataC4 "g" k) "v" : ℚ)))) ∧
      (numericCount (groupRows cDataC4 "g" k) "v" = 0 →
        jsGet cRowC4 "v" = some (.num ((groupRows cDataC4 "g" k).length : ℚ)))) :=
  ⟨by decide,
   aggregate_group_accumulators cDataC4 "g" "v" cRowC4 (by decide) (by decide)
     (by decide) (by decide) (by decide) (by decide) (by decide)⟩

/-! Claim C5.  The ordered operators evaluate by the numeric-then-date
coercion cascade and exclude the row when neither coercion applies to both
sides. -/

/-- C5: for every filter with one of the four ordered operators and every
row whose cell for the filter column is a string c, the filter's truth
value is the numeric comparison when both c and the filter value coerce to
numbers, else the date comparison when both coerce to dates, else false
(row excluded). -/
theorem ordered_operator_coercion_cascade (f : FilterCondition) (row : GridRow)
    (c : String)
    (hop : f.operator = "greater" ∨ f.operator = "less" ∨
           f.operator = "greaterEqual" ∨ f.operator = "lessEqual")
    (hc : jsGet row f.column = some (.str c)) :
    rowPasses f row =
      (match jsNumber c, jsNumber f.value with
       | some a, some b => ordCmpB f.operator a b
       | _, _ =>
         match jsDateParse c, jsDateParse f.value with
         | some a, some b => ordCmpB f.operator a b
         | _, _ => false) := by
  obtain ⟨i, col, op, v⟩ := f
  simp only at hop hc ⊢
  rcases hop with h | h | h | h <;> subst h <;>
    simp [rowPasses, hc, ordCascade, ordCmpB, cellToNumber, cellToDate]

/-- C5 witness: the cascade hypothesis is satisfied at the numeric example
age > 28 on a cell 30, and the theorem computes the match there. -/
theorem ordered_operator_coercion_cascade_witness :
    rowPasses { id := "f", column := "age", operator := "greater", value := "28" }
      [("age", CellVal.str "30")] = true :=
  (ordered_operator_coercion_cascade
      { id := "f", column := "age", operator := "greater", value := "28" }
      [("age", CellVal.str "30")] "30" (Or.inl rfl) (by decide)).trans (by decide)

/-! Claim C6.  Filters combine conjunctively with independent per-row
predicates, so their order in the list is irrelevant. -/

/-- C6: applying two filters in either order yields the same row list. -/
theorem applyFilters_order_invariant (data : List GridRow) (f1 f2 : FilterCondition) :
    applyFilters data [f1, f2] = applyFilters data [f2, f1] := by
  show (data.filter (rowPasses f1)).filter (rowPasses f2) =
       (data.filter (rowPasses f2)).filter (rowPasses f1)
  exact filter_swap _ _ _

/-! Claim C7 (corrected).  The comparator is numeric only when both keys
parse as numbers and lexicographic otherwise; on key sets where this rule
is acyclic (such as the spec's example) the output is sorted by it, but
mixed keys can make the rule cyclic, and then no output order - including
the code's - satisfies it on every pair. -/

/-- C7 counterexample: grouping keys 10, 1z and 2 (insertion order) the
output key order is 2, 10, 1z, whose pair (2, 1z) violates the claimed
lexicographic order for pairs with a non-numeric member; the claimed rule
is cyclic on these keys (10 before 1z and 1z before 2 lexicographically,
2 before 10 numerically), so no order satisfies it. -/
theorem aggregate_sort_pairwise_cex :
    groupKeyStrings
        (aggregateDataForChart
          [[("cat", CellVal.str "10")], [("cat", CellVal.str "1z")],
           [("cat", CellVal.str "2")]] "cat" "val") "cat" = ["2", "10", "1z"] ∧
    claimSorted ["2", "10", "1z"] = false ∧
    claimSorted ["10", "1z", "2"] = false ∧
    claimSorted ["10", "2", "1z"] = false ∧
    claimSorted ["1z", "2", "10"] = false ∧
    claimSorted ["1z", "10", "2"] = false ∧
    claimSorted ["2", "1z", "10"] = false := by
  decide

/-- C7 amended: output rows are sorted by the comparator that is numeric
ascending when both keys parse as numbers and lexicographic ascending
otherwise, whenever that rule orders the keys consistently; in particular
the spec's example groups 10, 2, bravo, alpha come out as 2, 10, alpha,
bravo (2 before 10 numerically, alpha before bravo lexicographically), and
that output satisfies the rule on every pair.  With mixed keys on which
the rule is cyclic no output order can satisfy it on every pair. -/
theorem aggregate_sort_spec_example :
    groupKeyStrings
        (aggregateDataForChart
          [[("category", CellVal.str "10")], [("category", CellVal.str "2")],
           [("category", CellVal.str "bravo")], [("category", CellVal.str "alpha")]]
          "category" "val") "category" = ["2", "10", "alpha", "bravo"] ∧
    claimSorted ["2", "10", "alpha", "bravo"] = true := by
  decide

/-! Claim C8.  The fallback pattern matcher end-to-end example. -/

/-- C8: the query sales > 15000 and status contains active against columns
sales, status yields exactly the two filters (sales, greater, 15000) and
(status, contains, active), in that order (the timestamp only enters the
generated ids). -/
theorem parseBasicQuery_end_to_end (now : Nat) :
    (parseBasicQuery now ["sales", "status"]
        "sales > 15000 and status contains active").map
      (fun f => (f.column, f.operator, f.value)) =
      [("sales", "greater", "15000"), ("status", "contains", "active")] := rfl

/-! Claim C9 (corrected).  A >= comparison does not also satisfy the
greater template: that template requires digits right after the > (up to
whitespace), which the = prevents, so only a greaterEqual filter is
produced. -/

/-- C9 counterexample: for the claim's example query sales >= 100 the
returned list holds the greaterEqual filter and no greater filter at all,
contradicting the claim that both appear. -/
theorem ge_query_no_greater_filter_cex :
    ((parseBasicQuery 0 ["sales"] "sales >= 100").filter
        (fun f => f.operator == "greaterEqual")).map
      (fun f => (f.column, f.operator, f.value)) = [("sales", "greaterEqual", "100")] ∧
    (parseBasicQuery 0 ["sales"] "sales >= 100").filter
        (fun f => f.operator == "greater") = [] := by
  decide

/-- C9 amended: a >= comparison matches only the greaterEqual template; the
greater template demands digits after the > separated only by whitespace,
which the = sign blocks, so the query sales >= 100 produces exactly one
filter, (sales, greaterEqual, 100), with no duplicate greater filter. -/
theorem ge_query_only_greaterEqual (now : Nat) :
    (parseBasicQuery now ["sales"] "sales >= 100").map
      (fun f => (f.column, f.operator, f.value)) =
      [("sales", "greaterEqual", "100")] := rfl

/-! Claim C10.  The operator switch has a default branch returning true, so
an unrecognized operator keeps every row whose cell is defined. -/

/-- C10: for a filter whose operator is none of the six recognized ones,
apply keeps exactly the rows whose cell for the filter column is defined
(the rows with an undefined cell are still dropped by the null guard). -/
theorem unknown_operator_keeps_defined_rows (f : FilterCondition) (data : List GridRow)
    (h : f.operator ∉ ["equals", "contains", "greater", "less", "greaterEqual", "lessEqual"]) :
    applyFilters data [f] = data.filter (fun row => (jsGet row f.column).isSome) := by
  show data.filter (rowPasses f) = _
  apply List.filter_congr
  intro row _
  cases hg : jsGet row f.column with
  | none => simp [rowPasses, hg]
  | some c =>
    simp only [rowPasses, hg, Option.isSome_some]
    split
    all_goals first
      | rfl
      | (exfalso; apply h; simp_all)

/-- C10 witness: a filter with operator between (not recognized) keeps the
row that has the column and drops the row that lacks it. -/
theorem unknown_operator_keeps_defined_rows_witness :
    applyFilters [[("a", CellVal.str "1")], [("b", CellVal.str "2")]]
        [{ id := "f", column := "a", operator := "between", value := "5" }] =
      [[("a", CellVal.str "1")]] :=
  (unknown_operator_keeps_defined_rows _ _ (by decide)).trans (by decide)

end AstraFlow
